import Mathlib

set_option autoImplicit false

/-!
Verification development for `audit.py` (Google Drive public-file audit tool).

The Python source is shallowly embedded: file records become a structure,
dictionary lookups that may raise `KeyError` become `Option`-valued lookups,
`try/except` blocks become `Except`-valued computations, and the orchestrator
in `__main__` becomes a function from parsed arguments and an environment of
external-call results to an exit outcome together with a trace of the
externally visible events it performed.
-/

/-- A Drive file record as produced by the public-file finder and consumed by
the formatters.  `id`, `name` and `webViewLink` are always present in the API
response mapping; `modifiedTime` and `sharedDriveName` may be absent
(`file.get(...)` / `file['sharedDriveName']` in the source). -/
structure FileRecord where
  id : String
  name : String
  webViewLink : String
  modifiedTime : Option String
  isSharedDriveFile : Bool
  sharedDriveName : Option String
  deriving DecidableEq, Repr

/-- Well-formedness of a record: a record tagged as a shared-drive file
carries its drive name.  The finder
(`get_publicly_shared_files_from_shared_drive`) always sets both fields
together, so every record reaching the formatters satisfies this. -/
def FileRecord.wf (r : FileRecord) : Prop :=
  r.isSharedDriveFile = true → r.sharedDriveName.isSome

instance (r : FileRecord) : Decidable r.wf := by
  unfold FileRecord.wf; infer_instance

/-- The `name` console field of `format_file_output`: the raw name, suffixed
with the parenthetical drive name when the record is tagged as a shared-drive
file.  `none` models the `KeyError` raised by `file['sharedDriveName']` when
the tag is set but the name is absent. -/
def consoleName (r : FileRecord) : Option String :=
  if r.isSharedDriveFile then
    (r.sharedDriveName).map (fun d => r.name ++ " (Shared Drive: " ++ d ++ ")")
  else
    some r.name

/-- Embedding of `format_file_output(file, fields)`: builds `output_parts` by
the same four membership tests, in source order, and joins with " | ".
`none` models an uncaught `KeyError` (only possible via the name field). -/
def format_file_output (r : FileRecord) (fields : List String) : Option String :=
  match (if fields.contains "name" then (consoleName r).map (fun n => [n]) else some []) with
  | none => none
  | some p0 =>
    let p1 := p0 ++ (if fields.contains "link" then [r.webViewLink] else [])
    let p2 := p1 ++ (if fields.contains "id" then [r.id] else [])
    let p3 := p2 ++ (if fields.contains "modified" then [r.modifiedTime.getD "N/A"] else [])
    some (String.intercalate " | " p3)

/-- The fixed field order of the console formatter. -/
def audit_fields : List String := ["name", "link", "id", "modified"]

/-- Spec-side description of the console name field (total; agrees with
`consoleName` on well-formed records). -/
def specConsoleName (r : FileRecord) : String :=
  if r.isSharedDriveFile then r.name ++ " (Shared Drive: " ++ r.sharedDriveName.getD "" ++ ")"
  else r.name

/-- Spec-side value of one selected field of a record. -/
def specFieldValue (r : FileRecord) (f : String) : String :=
  if f = "name" then specConsoleName r
  else if f = "link" then r.webViewLink
  else if f = "id" then r.id
  else r.modifiedTime.getD "N/A"

/-- Spec-side description of the formatter: the fixed order
{name, link, id, modified} restricted to the selection, pipe-joined. -/
def specFormat (r : FileRecord) (fields : List String) : String :=
  String.intercalate " | " ((audit_fields.filter (fun f => fields.contains f)).map (specFieldValue r))

theorem consoleName_eq_spec (r : FileRecord) (h : r.wf) :
    consoleName r = some (specConsoleName r) := by
  unfold consoleName specConsoleName
  cases hs : r.isSharedDriveFile with
  | false => simp
  | true =>
    have := h hs
    obtain ⟨d, hd⟩ := Option.isSome_iff_exists.mp this
    simp [hd]

/-- Sample record: first file of the spec scenario, missing `modifiedTime`. -/
def doc1 : FileRecord :=
  { id := "id1", name := "Doc1", webViewLink := "https://drive.example/doc1"
    modifiedTime := none, isSharedDriveFile := false, sharedDriveName := none }

/-- Sample record: second file of the spec scenario. -/
def doc2 : FileRecord :=
  { id := "id2", name := "Doc2", webViewLink := "https://drive.example/doc2"
    modifiedTime := some "2024-01-01T00:00:00Z", isSharedDriveFile := false
    sharedDriveName := none }

/-- Sample shared-drive record. -/
def sdoc : FileRecord :=
  { id := "id3", name := "Plan", webViewLink := "https://drive.example/plan"
    modifiedTime := some "2024-02-02T00:00:00Z", isSharedDriveFile := true
    sharedDriveName := some "Eng" }

/-- **C3.** For every file record and field selection, the console formatter
returns exactly the selected fields, pipe-joined, in the fixed order
{name, link, id, modified} restricted to the selection; the modified position
holds 'N/A' exactly when `modifiedTime` is absent. -/
theorem format_file_output_spec (r : FileRecord) (fields : List String) (h : r.wf) :
    format_file_output r fields = some (specFormat r fields)
    ∧ (r.modifiedTime = none → specFieldValue r "modified" = "N/A")
    ∧ (∀ t, r.modifiedTime = some t → specFieldValue r "modified" = t) := by
  refine ⟨?_, ?_, ?_⟩
  · unfold format_file_output specFormat audit_fields
    rw [consoleName_eq_spec r h]
    by_cases h1 : "name" ∈ fields <;> by_cases h2 : "link" ∈ fields <;>
      by_cases h3 : "id" ∈ fields <;> by_cases h4 : "modified" ∈ fields <;>
      simp [h1, h2, h3, h4, List.filter, specFieldValue]
  · intro hm; simp [specFieldValue, hm]
  · intro t hm; simp [specFieldValue, hm]

/-- Witness for C3: the spec scenario record `Doc1` with missing
`modifiedTime`, selection `name modified`, renders as `Doc1 | N/A`. -/
theorem format_file_output_spec_witness :
    format_file_output doc1 ["name", "modified"] = some "Doc1 | N/A" :=
  ((format_file_output_spec doc1 ["name", "modified"] (by decide)).1).trans (by decide)

theorem intercalate_single (s x : String) : String.intercalate s [x] = x := rfl

/-- **C5.** A record tagged as a shared-drive file has its console name
suffixed with its drive name; an untagged record never acquires the suffix. -/
theorem shared_drive_suffix_iff_tagged (r : FileRecord) (h : r.wf) :
    (r.isSharedDriveFile = true →
      format_file_output r ["name"]
        = some (r.name ++ " (Shared Drive: " ++ r.sharedDriveName.getD "" ++ ")"))
    ∧ (r.isSharedDriveFile = false → format_file_output r ["name"] = some r.name) := by
  constructor
  · intro ht
    have hc := consoleName_eq_spec r h
    simp [format_file_output, hc, specConsoleName, ht, intercalate_single]
  · intro hf
    simp [format_file_output, consoleName, hf, intercalate_single]

/-- Witness for C5: concrete tagged and untagged records. -/
theorem shared_drive_suffix_iff_tagged_witness :
    format_file_output sdoc ["name"] = some "Plan (Shared Drive: Eng)"
    ∧ format_file_output doc1 ["name"] = some "Doc1" := by
  constructor
  · have h := (shared_drive_suffix_iff_tagged sdoc (by decide)).1 (by decide)
    exact h.trans (by decide)
  · exact (shared_drive_suffix_iff_tagged doc1 (by decide)).2 (by decide)

/-- **C10.** A selection containing none of name/link/id/modified (in
particular the empty selection) makes the formatter return the empty string
rather than fail. -/
theorem format_file_output_empty_selection (r : FileRecord) (fields : List String)
    (h1 : "name" ∉ fields) (h2 : "link" ∉ fields)
    (h3 : "id" ∉ fields) (h4 : "modified" ∉ fields) :
    format_file_output r fields = some "" := by
  simp [format_file_output, h1, h2, h3, h4, String.intercalate]

/-- Witness for C10: the empty selection on a concrete record. -/
theorem format_file_output_empty_selection_witness :
    format_file_output doc1 [] = some "" :=
  format_file_output_empty_selection doc1 [] (by simp) (by simp) (by simp) (by simp)

/-! ### Error-message parsing (`parse_api_error`) and the error logger -/

/-- `lstartsWith n h` is true when the character list `n` is an initial
segment of `h` (the anchored-match step of `re.search`). -/
def lstartsWith : List Char → List Char → Bool
  | [], _ => true
  | _ :: _, [] => false
  | a :: as, b :: bs => a == b && lstartsWith as bs

/-- `lcontains n s` mirrors Python's substring test `n in s`. -/
def lcontains (n : List Char) : List Char → Bool
  | [] => lstartsWith n []
  | c :: t => lstartsWith n (c :: t) || lcontains n t

/-- `n` occurs as a contiguous substring of `s`. -/
def OccursIn (n s : List Char) : Prop := ∃ t u, s = t ++ n ++ u

theorem lstartsWith_iff (n h : List Char) :
    lstartsWith n h = true ↔ ∃ u, h = n ++ u := by
  induction n generalizing h with
  | nil => simp [lstartsWith]
  | cons a as ih =>
    cases h with
    | nil => simp [lstartsWith]
    | cons b bs =>
      simp only [lstartsWith, Bool.and_eq_true, beq_iff_eq, ih]
      constructor
      · rintro ⟨rfl, u, rfl⟩; exact ⟨u, rfl⟩
      · rintro ⟨u, hu⟩
        injection hu with h1 h2
        exact ⟨h1.symm, u, h2⟩

theorem occursIn_nil (n : List Char) : OccursIn n [] ↔ n = [] := by
  constructor
  · rintro ⟨t, u, h⟩
    rcases List.append_eq_nil.mp h.symm with ⟨h1, h2⟩
    exact (List.append_eq_nil.mp h1).2
  · rintro rfl; exact ⟨[], [], rfl⟩

theorem occursIn_cons (n : List Char) (c : Char) (t : List Char) :
    OccursIn n (c :: t) ↔ (∃ u, c :: t = n ++ u) ∨ OccursIn n t := by
  constructor
  · rintro ⟨t0, u, h⟩
    cases t0 with
    | nil => exact Or.inl ⟨u, by simpa using h⟩
    | cons d t0 =>
      injection h with h1 h2
      exact Or.inr ⟨t0, u, h2⟩
  · rintro (⟨u, hu⟩ | ⟨t0, u, h⟩)
    · exact ⟨[], u, by simpa using hu⟩
    · exact ⟨c :: t0, u, by simp [h]⟩

theorem lcontains_iff (n s : List Char) : lcontains n s = true ↔ OccursIn n s := by
  induction s with
  | nil =>
    rw [show lcontains n [] = lstartsWith n [] from rfl, lstartsWith_iff, occursIn_nil]
    constructor
    · rintro ⟨u, hu⟩
      exact (List.append_eq_nil.mp hu.symm).1
    · rintro rfl; exact ⟨[], rfl⟩
  | cons c t ih =>
    simp [lcontains, lstartsWith_iff, ih, occursIn_cons]

/-- The characters excluded by the regex class `[^\s'"]` (Python whitespace
plus the two quote characters). -/
def urlStop (c : Char) : Bool :=
  c == Char.ofNat 32 || c == Char.ofNat 9 || c == Char.ofNat 10 || c == Char.ofNat 13
    || c == Char.ofNat 11 || c == Char.ofNat 12 || c == Char.ofNat 39 || c == Char.ofNat 34

/-- The literal part of the activation-URL regex. -/
def urlLit : List Char := "https://console.developers.google.com".data

/-- The substring tested by `'console.developers.google.com' in error_str`. -/
def consoleLit : List Char := "console.developers.google.com".data

/-- Embedding of
`re.search(r'https://console\.developers\.google\.com[^\s\x27"]*', s)`:
leftmost occurrence of the literal, then the greedy extension. -/
def search_url : List Char → Option (List Char)
  | [] => none
  | c :: t =>
    if lstartsWith urlLit (c :: t) then
      some (urlLit ++ (((c :: t).drop urlLit.length).takeWhile (fun ch => !urlStop ch)))
    else search_url t

theorem search_url_isSome (s : List Char) :
    (search_url s).isSome = true ↔ OccursIn urlLit s := by
  induction s with
  | nil =>
    simp only [search_url, Option.isSome_none, occursIn_nil]
    constructor
    · intro h; cases h
    · intro h; exact absurd h (by simp [urlLit])
  | cons c t ih =>
    rw [occursIn_cons]
    by_cases hs : lstartsWith urlLit (c :: t) = true
    · simp [search_url, hs, (lstartsWith_iff _ _).mp hs]
    · have : ¬ ∃ u, c :: t = urlLit ++ u := fun h => hs ((lstartsWith_iff _ _).mpr h)
      simp [search_url, hs, ih, this]

/-- Embedding of `parse_api_error(error)`: the substring guard followed by
the regex search; `none` models Python's `None`. -/
def parse_api_error (e : String) : Option String :=
  if lcontains consoleLit e.data then (search_url e.data).map (fun l => String.mk l)
  else none

theorem urlLit_decomp : urlLit = "https://".data ++ consoleLit := by decide

theorem occurs_console_of_occurs_url (s : List Char) (h : OccursIn urlLit s) :
    OccursIn consoleLit s := by
  obtain ⟨t, u, rfl⟩ := h
  exact ⟨t ++ "https://".data, u, by rw [urlLit_decomp]; simp⟩

/-- The console lines printed by `test_admin_api` on failure, as a function
of the error text. -/
def admin_error_message (e : String) : List String :=
  match parse_api_error e with
  | some url => ["ERROR: Admin SDK Directory API is not enabled.", "Enable it here: " ++ url]
  | none => ["ERROR: Admin SDK Directory API test failed: " ++ e]

/-- **C8.** The validator surfaces an activation URL exactly when the error
text contains an `https://console.developers.google.com...` URL; otherwise
the raw error text is surfaced. -/
theorem parse_api_error_spec (e : String) :
    ((parse_api_error e).isSome = true ↔ OccursIn urlLit e.data)
    ∧ (∀ u, parse_api_error e = some u →
        admin_error_message e
          = ["ERROR: Admin SDK Directory API is not enabled.", "Enable it here: " ++ u])
    ∧ (parse_api_error e = none →
        admin_error_message e = ["ERROR: Admin SDK Directory API test failed: " ++ e]) := by
  refine ⟨?_, ?_, ?_⟩
  · unfold parse_api_error
    by_cases hc : lcontains consoleLit e.data = true
    · simp [hc, search_url_isSome]
    · have : ¬ OccursIn urlLit e.data := fun h =>
        hc ((lcontains_iff _ _).mpr (occurs_console_of_occurs_url _ h))
      simp [hc, this]
  · intro u hu; simp [admin_error_message, hu]
  · intro hn; simp [admin_error_message, hn]

/-- Witness for C8: one error text with an activation URL, one without. -/
theorem parse_api_error_spec_witness :
    admin_error_message "denied, see https://console.developers.google.com/apis/library now"
      = ["ERROR: Admin SDK Directory API is not enabled.",
         "Enable it here: https://console.developers.google.com/apis/library"]
    ∧ admin_error_message "quota exceeded"
      = ["ERROR: Admin SDK Directory API test failed: quota exceeded"] := by
  constructor
  · exact (parse_api_error_spec
      "denied, see https://console.developers.google.com/apis/library now").2.1
      "https://console.developers.google.com/apis/library" (by decide)
  · exact (parse_api_error_spec "quota exceeded").2.2 (by decide)

/-- A Python `try/except Exception` block over an `Except`-valued body. -/
def tryCatchE {α : Type} (body : Except String α) (handler : String → Except String α) :
    Except String α :=
  match body with
  | .ok a => .ok a
  | .error e => handler e

/-- Embedding of `log_error`: the append to `errors.txt` (whose outcome is
`writeRes`) and the success print happen inside `try`; the handler prints a
failure line.  The result is the console line produced. -/
def log_error_run (writeRes : Except String Unit) : Except String String :=
  tryCatchE (writeRes.map (fun _ => "Error logged to: errors.txt"))
    (fun e => Except.ok ("Failed to log error: " ++ e))

/-- **C9.** The error logger never propagates an exception: whatever the
outcome of the file append, `log_error` returns normally, reporting the
failure on the console when the append failed. -/
theorem log_error_run_total (w : Except String Unit) :
    ∃ m, log_error_run w = Except.ok m
      ∧ (∀ e, w = Except.error e → m = "Failed to log error: " ++ e)
      ∧ (w = Except.ok () → m = "Error logged to: errors.txt") := by
  cases w with
  | ok a => exact ⟨"Error logged to: errors.txt", rfl, by simp, fun _ => rfl⟩
  | error e =>
    exact ⟨"Failed to log error: " ++ e, rfl, by simp, by simp⟩

/-- Witness for C9: a concrete failing append is caught and reported. -/
theorem log_error_run_total_witness :
    log_error_run (Except.error "disk full") = Except.ok "Failed to log error: disk full" := by
  obtain ⟨m, hm, hf, -⟩ := log_error_run_total (Except.error "disk full")
  rw [hm, hf "disk full" rfl]
  rfl

/-! ### Spreadsheet report builder (`create_google_sheets_report`) -/

/-- Tab title for one source: the sentinel maps to "Shared Drives", a user
email maps to `email.split('@')[0][:30]` (the local part, truncated to 30
characters for sheet-name limits).  `Char.ofNat 64` is the at sign. -/
def sheet_title (email : String) : String :=
  if email = "__SHARED_DRIVES__" then "Shared Drives"
  else String.mk ((email.data.takeWhile (fun c => c != Char.ofNat 64)).take 30)

/-- Header row used for the shared-drives tab. -/
def shared_headers : List String :=
  ["File Name", "Share Link", "File ID", "Modified Time", "Shared Drive"]

/-- Header row used for a user tab. -/
def user_headers : List String := ["File Name", "Share Link", "File ID", "Modified Time"]

/-- One data row of a tab, as built in the `for file in files` loop. -/
def sheet_row (sentinel : Bool) (f : FileRecord) : List String :=
  if sentinel then
    [f.name, f.webViewLink, f.id, f.modifiedTime.getD "N/A", f.sharedDriveName.getD "N/A"]
  else
    [f.name, f.webViewLink, f.id, f.modifiedTime.getD "N/A"]

/-- The `for user_email, files in user_data.items()` loop of
`create_google_sheets_report`: returns the `addSheet` request titles and the
per-tab `(sheet_title, rows)` data, skipping empty sources. -/
def build_sheets : List (String × List FileRecord) →
    List String × List (String × List (List String))
  | [] => ([], [])
  | (email, files) :: rest =>
    let (reqs, data) := build_sheets rest
    if files.isEmpty then (reqs, data)
    else
      let title := sheet_title email
      let sentinel := email = "__SHARED_DRIVES__"
      let rows := (if sentinel then shared_headers else user_headers)
        :: files.map (sheet_row sentinel)
      (title :: reqs, (title, rows) :: data)

/-- `sum(len(files) for files in user_data.values())`. -/
def total_files_of (ud : List (String × List FileRecord)) : Nat :=
  (ud.map (fun p => p.2.length)).sum

/-- `len([email for email, files in user_data.items() if files and email != '__SHARED_DRIVES__'])`. -/
def users_with_files (ud : List (String × List FileRecord)) : Nat :=
  (ud.filter (fun p => !p.2.isEmpty && p.1 != "__SHARED_DRIVES__")).length

/-- `len(user_data.get('__SHARED_DRIVES__', []))`. -/
def shared_drive_count (ud : List (String × List FileRecord)) : Nat :=
  ((ud.lookup "__SHARED_DRIVES__").getD []).length

/-- The per-source summary rows appended to the dashboard. -/
def summary_rows (ud : List (String × List FileRecord)) : List (List String) :=
  (ud.filter (fun p => !p.2.isEmpty)).map (fun p =>
    [if p.1 = "__SHARED_DRIVES__" then "Shared Drives" else p.1,
     toString p.2.length, sheet_title p.1])

/-- The `dashboard_data` payload written to `Dashboard!A1`, with the audit
date and domain passed in as parameters. -/
def dashboard_data (now domain : String) (ud : List (String × List FileRecord)) :
    List (List String) :=
  [["Cool Drive Audit Report"],
   [""],
   ["Audit Date:", now],
   ["Domain:", domain],
   ["Total Public Files:", toString (total_files_of ud)],
   ["Users with Public Files:", toString (users_with_files ud)],
   ["Shared Drive Public Files:", toString (shared_drive_count ud)],
   [""],
   ["Summary:"],
   ["Source", "Files Count", "Sheet Tab"]] ++ summary_rows ud

/-- **C6.** The 'Total Public Files' dashboard value is the sum of the
lengths of all per-source file lists of the collection. -/
theorem dashboard_total_files (now domain : String) (ud : List (String × List FileRecord)) :
    (dashboard_data now domain ud)[4]?
      = some ["Total Public Files:", toString ((ud.map (fun p => p.2.length)).sum)] := rfl

theorem build_sheets_titles (ud : List (String × List FileRecord)) :
    (build_sheets ud).1 = (ud.filter (fun p => !p.2.isEmpty)).map (fun p => sheet_title p.1) := by
  induction ud with
  | nil => rfl
  | cons p rest ih =>
    obtain ⟨email, files⟩ := p
    by_cases hf : files.isEmpty
    · simp [build_sheets, hf, List.filter_cons, ih]
    · simp [build_sheets, hf, List.filter_cons, ih]

/-- **C4 (amended).** Tab titles are derived from the local part of the
user email truncated to 30 characters ("Shared Drives" for the sentinel);
they are unique whenever the derived titles of the distinct non-empty
sources are pairwise distinct (truncation itself can collide, see the
counterexample). -/
theorem build_sheets_title_spec (ud : List (String × List FileRecord))
    (h : (ud.filter (fun p => !p.2.isEmpty)).Pairwise
      (fun p q => sheet_title p.1 ≠ sheet_title q.1)) :
    (build_sheets ud).1 = (ud.filter (fun p => !p.2.isEmpty)).map (fun p => sheet_title p.1)
    ∧ (build_sheets ud).1.Nodup
    ∧ (∀ e, e ≠ "__SHARED_DRIVES__" →
        sheet_title e = String.mk ((e.data.takeWhile (fun c => c != Char.ofNat 64)).take 30)) := by
  refine ⟨build_sheets_titles ud, ?_, ?_⟩
  · rw [build_sheets_titles ud]
    exact List.pairwise_map.mpr h
  · intro e he; simp [sheet_title, he]

/-- Witness for C4: two users with short distinct local parts get distinct
tab titles. -/
theorem build_sheets_title_spec_witness :
    (build_sheets [("alice@example.com", [doc1]), ("bob@example.com", [doc2])]).1
      = ["alice", "bob"]
    ∧ (build_sheets [("alice@example.com", [doc1]), ("bob@example.com", [doc2])]).1.Nodup := by
  have h := build_sheets_title_spec
    [("alice@example.com", [doc1]), ("bob@example.com", [doc2])] (by decide)
  exact ⟨h.1.trans (by decide), h.2.1⟩

/-- A 30-character local-part stem. -/
def longStem : String := "aaaaaaaaaaaaaaaaaaaaaaaaaaaaaa"

/-- Two distinct user emails whose local parts agree on the first 30
characters. -/
def collider_data : List (String × List FileRecord) :=
  [(longStem ++ "b@example.com", [doc1]), (longStem ++ "c@example.com", [doc2])]

/-- **C4 counterexample.** Distinct source emails can yield duplicate tab
titles: truncation to 30 characters identifies `aaaa…ab@example.com` and
`aaaa…ac@example.com`, so the titles of one run are not always unique. -/
theorem build_sheets_titles_not_unique :
    (collider_data.map Prod.fst).Nodup ∧ ¬ (build_sheets collider_data).1.Nodup := by
  constructor
  · decide
  · decide

/-! ### Orchestrator (`__main__`)

The entry point is embedded as a function from the parsed arguments and an
environment (the results the external collaborators would return) to the
final outcome together with the trace of externally visible events, in the
order the script performs them.  An `Except.error` result of an environment
field models the corresponding Python call raising.  Calls made inside a
`try` block are caught as in the source; calls outside any `try`
(`open('email_template.html')`, `os.mkdir`, `common.get_domain_users()` and
the per-user HTML writes) crash the run. -/

/-- Externally visible events of one run. -/
inductive Ev where
  | mkOutdir
  | listUsers
  | listDrives
  | fetchDrive (id : String)
  | fetchUser (email : String)
  | htmlWrite (path : String)
  | sheetsReport
  | logError (context : String)
  deriving DecidableEq, Repr

/-- Final outcome: `exited c` is `sys.exit(c)` or normal completion
(`exited 0`); `crashed m` is an uncaught exception. -/
inductive Outcome where
  | exited (code : Nat)
  | crashed (msg : String)
  deriving DecidableEq, Repr

/-- A domain user as returned by the Admin Directory listing. -/
structure UserRec where
  primaryEmail : String
  givenName : Option String
  deriving DecidableEq, Repr

/-- A shared drive as returned by the Drive listing. -/
structure DriveRec where
  id : String
  name : String
  deriving DecidableEq, Repr

/-- The parsed command-line arguments. -/
structure Args where
  fields : List String
  noHtml : Bool
  sheets : Bool
  sharedDrivesOnly : Bool
  debugMode : Bool
  deriving DecidableEq, Repr

/-- Results of the external collaborators for one run. -/
structure Env where
  adminOk : Bool
  driveOk : Bool
  sheetsOk : Bool
  templateRead : Except String String
  mkdirResult : Except String Unit
  domainUsers : Except String (List UserRec)
  sharedDrives : Except String (List DriveRec)
  driveFiles : String → String → Except String (List FileRecord)
  userFiles : String → Except String (List FileRecord)
  htmlWrite : String → Except String Unit
  sheetsCreate : Except String String

/-- `test_admin_api()`: on failure the error is logged with its context. -/
def test_admin_run (env : Env) : List Ev × Bool :=
  if env.adminOk then ([], true) else ([.logError "Admin SDK Directory API test"], false)

/-- `test_drive_api()`. -/
def test_drive_run (env : Env) : List Ev × Bool :=
  if env.driveOk then ([], true) else ([.logError "Google Drive API test"], false)

/-- `test_sheets_api()`. -/
def test_sheets_run (env : Env) : List Ev × Bool :=
  if env.sheetsOk then ([], true) else ([.logError "Google Sheets API test"], false)

/-- `validate_apis(use_sheets)`: Admin and Drive always, Sheets only when
requested; all tests run and the results are conjoined. -/
def validate_apis_run (env : Env) (useSheets : Bool) : List Ev × Bool :=
  let a := test_admin_run env
  let d := test_drive_run env
  let s := if useSheets then test_sheets_run env else ([], true)
  (a.1 ++ d.1 ++ s.1, a.2 && d.2 && s.2)

/-- The `for drive in shared_drives` loop: each per-drive fetch is inside its
own `try`, a failure is logged and the loop continues. -/
def driveLoop (env : Env) : List DriveRec → List Ev × List FileRecord
  | [] => ([], [])
  | d :: ds =>
    match env.driveFiles d.id d.name with
    | .ok files =>
      let r := driveLoop env ds
      (.fetchDrive d.id :: r.1, files ++ r.2)
    | .error _ =>
      let r := driveLoop env ds
      (.fetchDrive d.id :: .logError ("Accessing shared drive: " ++ d.name) :: r.1, r.2)

/-- The whole shared-drives block (wrapped in the outer `try`): lists the
drives, runs the loop, and on non-empty results updates the totals and
`sheets_data` before attempting the HTML page, whose failure is caught by
the outer handler.  Returns (trace, files total, sheets_data entries). -/
def drivePhase (env : Env) (a : Args) : List Ev × Nat × List (String × List FileRecord) :=
  match env.sharedDrives with
  | .error _ => ([.listDrives, .logError "Processing shared drives"], 0, [])
  | .ok drives =>
    let r := driveLoop env drives
    if r.2.isEmpty then (.listDrives :: r.1, 0, [])
    else if a.noHtml then (.listDrives :: r.1, r.2.length, [("__SHARED_DRIVES__", r.2)])
    else
      match env.htmlWrite "shared-drives.html" with
      | .ok _ =>
        (.listDrives :: r.1 ++ [.htmlWrite "shared-drives.html"], r.2.length,
          [("__SHARED_DRIVES__", r.2)])
      | .error _ =>
        (.listDrives :: r.1 ++ [.logError "Processing shared drives"], r.2.length,
          [("__SHARED_DRIVES__", r.2)])

/-- Result of the per-user loop: normal completion with the accumulated
trace, total and `sheets_data`, or a crash (the per-user HTML write is not
inside any `try`). -/
inductive LoopRes where
  | done (tr : List Ev) (total : Nat) (sd : List (String × List FileRecord))
  | crashed (tr : List Ev) (msg : String)
  deriving DecidableEq, Repr

/-- Prepend events to a loop result's trace. -/
def LoopRes.pre (es : List Ev) : LoopRes → LoopRes
  | .done tr t s => .done (es ++ tr) t s
  | .crashed tr m => .crashed (es ++ tr) m

/-- The `for user in users` loop: the fetch is inside a `try` (logged and
skipped on failure); the HTML page write is not, so its failure crashes. -/
def userLoop (env : Env) (noHtml : Bool) :
    List UserRec → Nat → List (String × List FileRecord) → LoopRes
  | [], total, sd => .done [] total sd
  | u :: us, total, sd =>
    match env.userFiles u.primaryEmail with
    | .error _ =>
      LoopRes.pre
        [.fetchUser u.primaryEmail, .logError ("Accessing files for user: " ++ u.primaryEmail)]
        (userLoop env noHtml us total sd)
    | .ok files =>
      if files.isEmpty then
        LoopRes.pre [.fetchUser u.primaryEmail] (userLoop env noHtml us total sd)
      else if noHtml then
        LoopRes.pre [.fetchUser u.primaryEmail]
          (userLoop env noHtml us (total + files.length) (sd ++ [(u.primaryEmail, files)]))
      else
        match env.htmlWrite (u.primaryEmail ++ ".html") with
        | .error m => .crashed [.fetchUser u.primaryEmail] m
        | .ok _ =>
          LoopRes.pre [.fetchUser u.primaryEmail, .htmlWrite (u.primaryEmail ++ ".html")]
            (userLoop env noHtml us (total + files.length) (sd ++ [(u.primaryEmail, files)]))

/-- The spreadsheet-report step: attempted only with `--sheets` and non-empty
data; a failure is caught and logged. -/
def sheetsPhase (env : Env) (a : Args) (sd : List (String × List FileRecord)) : List Ev :=
  if a.sheets && !sd.isEmpty then
    match env.sheetsCreate with
    | .ok _ => [.sheetsReport]
    | .error _ => [.sheetsReport, .logError "Creating Google Sheets report"]
  else []

/-- Embedding of the `__main__` flow: validate (exit 1 on failure), template
read and output-directory creation (unless `--no-html`), domain-user listing
(unconditional), shared-drive phase, per-user phase (unless
`--shared-drives-only`), spreadsheet phase, normal exit. -/
def mainRun (a : Args) (env : Env) : List Ev × Outcome :=
  let v := validate_apis_run env a.sheets
  if !v.2 then (v.1, .exited 1)
  else
    let setup : Except String (List Ev) :=
      if a.noHtml then .ok []
      else
        match env.templateRead with
        | .error m => .error m
        | .ok _ =>
          match env.mkdirResult with
          | .error m => .error m
          | .ok _ => .ok [.mkOutdir]
    match setup with
    | .error m => (v.1, .crashed m)
    | .ok str =>
      match env.domainUsers with
      | .error m => (v.1 ++ str ++ [.listUsers], .crashed m)
      | .ok users =>
        let dp := drivePhase env a
        if a.sharedDrivesOnly then
          (v.1 ++ str ++ [.listUsers] ++ dp.1 ++ sheetsPhase env a dp.2.2, .exited 0)
        else
          match userLoop env a.noHtml users dp.2.1 dp.2.2 with
          | .crashed utr m => (v.1 ++ str ++ [.listUsers] ++ dp.1 ++ utr, .crashed m)
          | .done utr _ sd =>
            (v.1 ++ str ++ [.listUsers] ++ dp.1 ++ utr ++ sheetsPhase env a sd, .exited 0)

theorem mem_test_admin_run (env : Env) (e : Ev) (h : e ∈ (test_admin_run env).1) :
    ∃ c, e = Ev.logError c := by
  unfold test_admin_run at h
  split at h
  · simp at h
  · simp at h; exact ⟨_, h⟩

theorem mem_test_drive_run (env : Env) (e : Ev) (h : e ∈ (test_drive_run env).1) :
    ∃ c, e = Ev.logError c := by
  unfold test_drive_run at h
  split at h
  · simp at h
  · simp at h; exact ⟨_, h⟩

theorem mem_test_sheets_run (env : Env) (e : Ev) (h : e ∈ (test_sheets_run env).1) :
    ∃ c, e = Ev.logError c := by
  unfold test_sheets_run at h
  split at h
  · simp at h
  · simp at h; exact ⟨_, h⟩

/-- Every event emitted during API validation is an error-log event. -/
theorem validate_trace_only_logs (env : Env) (b : Bool) (e : Ev)
    (h : e ∈ (validate_apis_run env b).1) : ∃ c, e = Ev.logError c := by
  unfold validate_apis_run at h
  simp only [List.mem_append] at h
  rcases h with (h | h) | h
  · exact mem_test_admin_run env e h
  · exact mem_test_drive_run env e h
  · cases b with
    | true => exact mem_test_sheets_run env e h
    | false => simp at h

theorem validate_no_user_fetch (env : Env) (b : Bool) (e : String) :
    Ev.fetchUser e ∉ (validate_apis_run env b).1 := by
  intro h
  obtain ⟨c, hc⟩ := validate_trace_only_logs env b _ h
  cases hc

theorem validate_no_mkdir (env : Env) (b : Bool) :
    Ev.mkOutdir ∉ (validate_apis_run env b).1 := by
  intro h
  obtain ⟨c, hc⟩ := validate_trace_only_logs env b _ h
  cases hc

theorem validate_no_drive_fetch (env : Env) (b : Bool) (i : String) :
    Ev.fetchDrive i ∉ (validate_apis_run env b).1 := by
  intro h
  obtain ⟨c, hc⟩ := validate_trace_only_logs env b _ h
  cases hc

theorem driveLoop_no_user_fetch (env : Env) (ds : List DriveRec) (e : String) :
    Ev.fetchUser e ∉ (driveLoop env ds).1 := by
  induction ds with
  | nil => simp [driveLoop]
  | cons d ds ih =>
    cases hf : env.driveFiles d.id d.name <;> simp [driveLoop, hf, ih]

theorem drivePhase_no_user_fetch (env : Env) (a : Args) (e : String) :
    Ev.fetchUser e ∉ (drivePhase env a).1 := by
  unfold drivePhase
  cases hs : env.sharedDrives with
  | error m => simp
  | ok drives =>
    by_cases he : (driveLoop env drives).2.isEmpty
    · simp [he, driveLoop_no_user_fetch]
    · by_cases hn : a.noHtml
      · simp [he, hn, driveLoop_no_user_fetch]
      · cases hw : env.htmlWrite "shared-drives.html" <;>
          simp [he, hn, hw, driveLoop_no_user_fetch]

theorem sheetsPhase_no_user_fetch (env : Env) (a : Args)
    (sd : List (String × List FileRecord)) (e : String) :
    Ev.fetchUser e ∉ sheetsPhase env a sd := by
  unfold sheetsPhase
  split
  · cases env.sheetsCreate <;> simp
  · simp

/-- The drive loop visits every drive and logs every per-drive failure. -/
theorem driveLoop_visits (env : Env) (ds : List DriveRec) :
    (∀ d ∈ ds, Ev.fetchDrive d.id ∈ (driveLoop env ds).1)
    ∧ (∀ d ∈ ds, ∀ m, env.driveFiles d.id d.name = Except.error m →
        Ev.logError ("Accessing shared drive: " ++ d.name) ∈ (driveLoop env ds).1) := by
  induction ds with
  | nil => simp
  | cons d ds ih =>
    obtain ⟨ih1, ih2⟩ := ih
    constructor
    · intro v hv
      rcases List.mem_cons.mp hv with rfl | hv
      · cases hf : env.driveFiles v.id v.name <;> simp [driveLoop, hf]
      · cases hf : env.driveFiles d.id d.name <;> simp [driveLoop, hf, ih1 v hv]
    · intro v hv m hm
      rcases List.mem_cons.mp hv with rfl | hv
      · simp [driveLoop, hm]
      · cases hf : env.driveFiles d.id d.name <;> simp [driveLoop, hf, ih2 v hv m hm]

/-- The drive phase visits every listed drive and logs every failure. -/
theorem drivePhase_visits (env : Env) (a : Args) (drives : List DriveRec)
    (hd : env.sharedDrives = Except.ok drives) :
    (∀ d ∈ drives, Ev.fetchDrive d.id ∈ (drivePhase env a).1)
    ∧ (∀ d ∈ drives, ∀ m, env.driveFiles d.id d.name = Except.error m →
        Ev.logError ("Accessing shared drive: " ++ d.name) ∈ (drivePhase env a).1) := by
  obtain ⟨h1, h2⟩ := driveLoop_visits env drives
  unfold drivePhase
  rw [hd]
  constructor
  · intro d hdm
    by_cases he : (driveLoop env drives).2.isEmpty
    · simp [he, h1 d hdm]
    · by_cases hn : a.noHtml
      · simp [he, hn, h1 d hdm]
      · cases hw : env.htmlWrite "shared-drives.html" <;> simp [he, hn, hw, h1 d hdm]
  · intro d hdm m hm
    by_cases he : (driveLoop env drives).2.isEmpty
    · simp [he, h2 d hdm m hm]
    · by_cases hn : a.noHtml
      · simp [he, hn, h2 d hdm m hm]
      · cases hw : env.htmlWrite "shared-drives.html" <;> simp [he, hn, hw, h2 d hdm m hm]

/-- When every HTML write succeeds, the user loop completes normally,
visits every user, and logs every per-user fetch failure. -/
theorem userLoop_spec (env : Env) (noHtml : Bool)
    (hw : ∀ p, env.htmlWrite p = Except.ok ()) :
    ∀ (us : List UserRec) (total : Nat) (sd : List (String × List FileRecord)),
      ∃ tr t s, userLoop env noHtml us total sd = LoopRes.done tr t s
        ∧ (∀ u ∈ us, Ev.fetchUser u.primaryEmail ∈ tr)
        ∧ (∀ u ∈ us, ∀ m, env.userFiles u.primaryEmail = Except.error m →
            Ev.logError ("Accessing files for user: " ++ u.primaryEmail) ∈ tr) := by
  intro us
  induction us with
  | nil => intro total sd; exact ⟨[], total, sd, rfl, by simp, by simp⟩
  | cons u us ih =>
    intro total sd
    cases hf : env.userFiles u.primaryEmail with
    | error m =>
      obtain ⟨tr, t, s, hdone, hmem, hlog⟩ := ih total sd
      refine ⟨[Ev.fetchUser u.primaryEmail,
          Ev.logError ("Accessing files for user: " ++ u.primaryEmail)] ++ tr, t, s, ?_, ?_, ?_⟩
      · simp [userLoop, hf, hdone, LoopRes.pre]
      · intro v hv
        rcases List.mem_cons.mp hv with rfl | hv
        · simp
        · exact List.mem_append_right _ (hmem v hv)
      · intro v hv m' hm
        rcases List.mem_cons.mp hv with rfl | hv
        · simp
        · exact List.mem_append_right _ (hlog v hv m' hm)
    | ok files =>
      by_cases hfe : files.isEmpty
      · obtain ⟨tr, t, s, hdone, hmem, hlog⟩ := ih total sd
        refine ⟨[Ev.fetchUser u.primaryEmail] ++ tr, t, s, ?_, ?_, ?_⟩
        · simp [userLoop, hf, hfe, hdone, LoopRes.pre]
        · intro v hv
          rcases List.mem_cons.mp hv with rfl | hv
          · simp
          · exact List.mem_append_right _ (hmem v hv)
        · intro v hv m' hm
          rcases List.mem_cons.mp hv with rfl | hv
          · rw [hf] at hm; cases hm
          · exact List.mem_append_right _ (hlog v hv m' hm)
      · by_cases hn : noHtml
        · obtain ⟨tr, t, s, hdone, hmem, hlog⟩ :=
            ih (total + files.length) (sd ++ [(u.primaryEmail, files)])
          refine ⟨[Ev.fetchUser u.primaryEmail] ++ tr, t, s, ?_, ?_, ?_⟩
          · rw [hn] at hdone
            simp [userLoop, hf, hfe, hn, hdone, LoopRes.pre]
          · intro v hv
            rcases List.mem_cons.mp hv with rfl | hv
            · simp
            · exact List.mem_append_right _ (hmem v hv)
          · intro v hv m' hm
            rcases List.mem_cons.mp hv with rfl | hv
            · rw [hf] at hm; cases hm
            · exact List.mem_append_right _ (hlog v hv m' hm)
        · obtain ⟨tr, t, s, hdone, hmem, hlog⟩ :=
            ih (total + files.length) (sd ++ [(u.primaryEmail, files)])
          refine ⟨[Ev.fetchUser u.primaryEmail,
              Ev.htmlWrite (u.primaryEmail ++ ".html")] ++ tr, t, s, ?_, ?_, ?_⟩
          · have hn' : noHtml = false := by simpa using hn
            rw [hn'] at hdone
            simp [userLoop, hf, hfe, hn', hw, hdone, LoopRes.pre]
          · intro v hv
            rcases List.mem_cons.mp hv with rfl | hv
            · simp
            · exact List.mem_append_right _ (hmem v hv)
          · intro v hv m' hm
            rcases List.mem_cons.mp hv with rfl | hv
            · rw [hf] at hm; cases hm
            · exact List.mem_append_right _ (hlog v hv m' hm)

/-- **C1 (amended).** If any required validation fails, the run exits with
code 1 having created no output directory and fetched no files; when all
required validations pass *and the unguarded follow-up operations (template
read, output-directory creation, domain-user listing, per-source HTML
writes) succeed*, the run exits with code 0. -/
theorem validate_gate_exit_codes (a : Args) (env : Env) :
    ((validate_apis_run env a.sheets).2 = false →
      (mainRun a env).2 = Outcome.exited 1
      ∧ Ev.mkOutdir ∉ (mainRun a env).1
      ∧ (∀ i, Ev.fetchDrive i ∉ (mainRun a env).1)
      ∧ (∀ e, Ev.fetchUser e ∉ (mainRun a env).1))
    ∧ ((validate_apis_run env a.sheets).2 = true →
      (∃ t, env.templateRead = Except.ok t) →
      env.mkdirResult = Except.ok () →
      (∃ us, env.domainUsers = Except.ok us) →
      (∀ p, env.htmlWrite p = Except.ok ()) →
      (mainRun a env).2 = Outcome.exited 0) := by
  constructor
  · intro hv
    have hmain : mainRun a env = ((validate_apis_run env a.sheets).1, Outcome.exited 1) := by
      simp [mainRun, hv]
    rw [hmain]
    exact ⟨rfl, validate_no_mkdir env a.sheets,
      fun i => validate_no_drive_fetch env a.sheets i,
      fun e => validate_no_user_fetch env a.sheets e⟩
  · rintro hv ⟨t, ht⟩ hm ⟨us, hus⟩ hw
    obtain ⟨tr, tt, s, hdone, -, -⟩ :=
      userLoop_spec env a.noHtml hw us (drivePhase env a).2.1 (drivePhase env a).2.2
    cases hnh : a.noHtml <;> rw [hnh] at hdone <;> by_cases hsd : a.sharedDrivesOnly <;>
      simp [mainRun, hv, hnh, hsd, ht, hm, hus, hdone]

/-- The environment in which every external call succeeds (and finds no
users, drives or files). -/
def envAllOk : Env :=
  { adminOk := true, driveOk := true, sheetsOk := true
    templateRead := Except.ok "template", mkdirResult := Except.ok ()
    domainUsers := Except.ok [], sharedDrives := Except.ok []
    driveFiles := fun _ _ => Except.ok [], userFiles := fun _ => Except.ok []
    htmlWrite := fun _ => Except.ok (), sheetsCreate := Except.ok "url" }

/-- A default argument vector (`--no-html`, no sheets, full audit). -/
def argsNH : Args :=
  { fields := ["name"], noHtml := true, sheets := false
    sharedDrivesOnly := false, debugMode := false }

/-- All validations pass but the domain-user listing raises. -/
def envUsersFail : Env := { envAllOk with domainUsers := Except.error "users listing failed" }

/-- Admin Directory validation fails. -/
def envAdminBad : Env := { envAllOk with adminOk := false }

/-- **C1 counterexample.** Passing all required validations does not make
the exit code 0: with every validation passing but the (unguarded)
domain-user listing raising, the run dies on the uncaught exception instead
of exiting 0. -/
theorem validation_pass_not_sufficient_for_exit0 :
    (validate_apis_run envUsersFail argsNH.sheets).2 = true
    ∧ (mainRun argsNH envUsersFail).2 ≠ Outcome.exited 0
    ∧ (mainRun argsNH envUsersFail).2 = Outcome.crashed "users listing failed" := by
  refine ⟨rfl, ?_, rfl⟩
  intro h
  have h0 : (mainRun argsNH envUsersFail).2 = Outcome.crashed "users listing failed" := rfl
  rw [h0] at h
  cases h

/-- Witness for C1: a failed Admin validation exits 1; the all-good
environment exits 0. -/
theorem validate_gate_exit_codes_witness :
    (mainRun argsNH envAdminBad).2 = Outcome.exited 1
    ∧ (mainRun argsNH envAllOk).2 = Outcome.exited 0 := by
  constructor
  · exact ((validate_gate_exit_codes argsNH envAdminBad).1 rfl).1
  · exact (validate_gate_exit_codes argsNH envAllOk).2 rfl ⟨"template", rfl⟩ rfl
      ⟨[], rfl⟩ (fun p => rfl)

/-- The `--shared-drives-only` argument vector. -/
def argsSD : Args :=
  { fields := ["name"], noHtml := true, sheets := false
    sharedDrivesOnly := true, debugMode := false }

/-- **C2 counterexample.** A `--shared-drives-only` run still performs the
domain-user listing (`common.get_domain_users()` is called unconditionally
before the shared-drive phase). -/
theorem shared_drives_only_still_lists_users :
    Ev.listUsers ∈ (mainRun argsSD envAllOk).1 := by decide

/-- **C2 (amended).** With `--shared-drives-only`, no per-user public-file
fetch is ever invoked; the domain-user listing, however, still happens on
every run that gets past validation and setup. -/
theorem shared_drives_only_no_user_fetch (a : Args) (env : Env)
    (h : a.sharedDrivesOnly = true) :
    (∀ e, Ev.fetchUser e ∉ (mainRun a env).1)
    ∧ ((validate_apis_run env a.sheets).2 = true →
      (a.noHtml = true ∨ ((∃ t, env.templateRead = Except.ok t)
        ∧ env.mkdirResult = Except.ok ())) →
      Ev.listUsers ∈ (mainRun a env).1) := by
  constructor
  · intro e
    by_cases hv : (validate_apis_run env a.sheets).2 = true
    · cases hnh : a.noHtml with
      | true =>
        cases hdu : env.domainUsers with
        | error m =>
          simp [mainRun, hv, hnh, hdu, validate_no_user_fetch]
        | ok us =>
          simp [mainRun, hv, hnh, hdu, h, List.mem_append, validate_no_user_fetch,
            drivePhase_no_user_fetch, sheetsPhase_no_user_fetch]
      | false =>
        cases htp : env.templateRead with
        | error m => simp [mainRun, hv, hnh, htp, validate_no_user_fetch]
        | ok t =>
          cases hmk : env.mkdirResult with
          | error m => simp [mainRun, hv, hnh, htp, hmk, validate_no_user_fetch]
          | ok u =>
            cases hdu : env.domainUsers with
            | error m =>
              simp [mainRun, hv, hnh, htp, hmk, hdu, validate_no_user_fetch]
            | ok us =>
              simp [mainRun, hv, hnh, htp, hmk, hdu, h, List.mem_append,
                validate_no_user_fetch, drivePhase_no_user_fetch, sheetsPhase_no_user_fetch]
    · have hv' : (validate_apis_run env a.sheets).2 = false := by simpa using hv
      simp [mainRun, hv', validate_no_user_fetch]
  · rintro hv (hnh | ⟨⟨t, ht⟩, hm⟩)
    · cases hdu : env.domainUsers with
      | error m => simp [mainRun, hv, hnh, hdu]
      | ok us => simp [mainRun, hv, hnh, hdu, h, List.mem_append]
    · cases hnh : a.noHtml with
      | true =>
        cases hdu : env.domainUsers with
        | error m => simp [mainRun, hv, hnh, hdu]
        | ok us => simp [mainRun, hv, hnh, hdu, h, List.mem_append]
      | false =>
        cases hdu : env.domainUsers with
        | error m => simp [mainRun, hv, hnh, ht, hm, hdu]
        | ok us => simp [mainRun, hv, hnh, ht, hm, hdu, h, List.mem_append]

/-- Witness for C2: a concrete `--shared-drives-only` run performs no user
fetch but does list the domain users. -/
theorem shared_drives_only_no_user_fetch_witness :
    Ev.fetchUser "alice@example.com" ∉ (mainRun argsSD envAllOk).1
    ∧ Ev.listUsers ∈ (mainRun argsSD envAllOk).1 := by
  have h := shared_drives_only_no_user_fetch argsSD envAllOk rfl
  exact ⟨h.1 "alice@example.com", h.2 rfl (Or.inl rfl)⟩

/-- **C7.** Per-source fetch errors are isolated: whatever the per-drive and
per-user fetch results, a run whose unguarded operations succeed exits 0,
visits every listed drive and (unless `--shared-drives-only`) every listed
user, and logs each failing source with its context. -/
theorem per_source_errors_isolated (a : Args) (env : Env)
    (users : List UserRec) (drives : List DriveRec)
    (hv : (validate_apis_run env a.sheets).2 = true)
    (ht : ∃ t, env.templateRead = Except.ok t)
    (hm : env.mkdirResult = Except.ok ())
    (hu : env.domainUsers = Except.ok users)
    (hd : env.sharedDrives = Except.ok drives)
    (hw : ∀ p, env.htmlWrite p = Except.ok ()) :
    (mainRun a env).2 = Outcome.exited 0
    ∧ (∀ d ∈ drives, Ev.fetchDrive d.id ∈ (mainRun a env).1)
    ∧ (∀ d ∈ drives, ∀ m, env.driveFiles d.id d.name = Except.error m →
        Ev.logError ("Accessing shared drive: " ++ d.name) ∈ (mainRun a env).1)
    ∧ (a.sharedDrivesOnly = false →
        (∀ u ∈ users, Ev.fetchUser u.primaryEmail ∈ (mainRun a env).1)
        ∧ (∀ u ∈ users, ∀ m, env.userFiles u.primaryEmail = Except.error m →
            Ev.logError ("Accessing files for user: " ++ u.primaryEmail)
              ∈ (mainRun a env).1)) := by
  obtain ⟨t, ht⟩ := ht
  obtain ⟨tr, tt, s, hdone, hmem, hlog⟩ :=
    userLoop_spec env a.noHtml hw users (drivePhase env a).2.1 (drivePhase env a).2.2
  obtain ⟨hd1, hd2⟩ := drivePhase_visits env a drives hd
  have hmain : ∀ e, e ∈ (drivePhase env a).1 ∨ (a.sharedDrivesOnly = false ∧ e ∈ tr) →
      e ∈ (mainRun a env).1 := by
    rintro e (hdp | ⟨hsd0, htr⟩)
    · cases hnh : a.noHtml <;> rw [hnh] at hdone <;>
        cases hsd : a.sharedDrivesOnly <;>
        simp [mainRun, hv, hnh, hsd, ht, hm, hu, hdone, List.mem_append] <;> tauto
    · cases hnh : a.noHtml <;> rw [hnh] at hdone <;>
        simp [mainRun, hv, hnh, hsd0, ht, hm, hu, hdone, List.mem_append] <;> tauto
  refine ⟨?_, ?_, ?_, ?_⟩
  · cases hnh : a.noHtml <;> rw [hnh] at hdone <;>
      by_cases hsd : a.sharedDrivesOnly <;>
      simp [mainRun, hv, hnh, hsd, ht, hm, hu, hdone]
  · intro d hdm
    exact hmain _ (Or.inl (hd1 d hdm))
  · intro d hdm m hme
    exact hmain _ (Or.inl (hd2 d hdm m hme))
  · intro hsd
    constructor
    · intro u hum
      exact hmain _ (Or.inr ⟨hsd, hmem u hum⟩)
    · intro u hum m hme
      exact hmain _ (Or.inr ⟨hsd, hlog u hum m hme⟩)

/-- An enumerated user whose fetch will fail. -/
def user1 : UserRec := { primaryEmail := "alice@example.com", givenName := some "Alice" }

/-- An enumerated user whose fetch succeeds. -/
def user2 : UserRec := { primaryEmail := "bob@example.com", givenName := none }

/-- An enumerated shared drive whose fetch will fail. -/
def drive1 : DriveRec := { id := "d1", name := "Eng" }

/-- Environment for the C7 witness: the drive fetch and the first user's
fetch raise; everything else succeeds. -/
def envC7 : Env :=
  { envAllOk with
    domainUsers := Except.ok [user1, user2]
    sharedDrives := Except.ok [drive1]
    driveFiles := fun _ _ => Except.error "drive 500"
    userFiles := fun e =>
      if e = "alice@example.com" then Except.error "user 403" else Except.ok [doc2] }

/-- Witness for C7: with one failing drive fetch and one failing user fetch
the run still exits 0, still fetches the remaining user, and logs both
failures with their contexts. -/
theorem per_source_errors_isolated_witness :
    (mainRun argsNH envC7).2 = Outcome.exited 0
    ∧ Ev.fetchUser "bob@example.com" ∈ (mainRun argsNH envC7).1
    ∧ Ev.logError "Accessing files for user: alice@example.com" ∈ (mainRun argsNH envC7).1
    ∧ Ev.logError "Accessing shared drive: Eng" ∈ (mainRun argsNH envC7).1 := by
  have h := per_source_errors_isolated argsNH envC7 [user1, user2] [drive1]
    rfl ⟨"template", rfl⟩ rfl rfl rfl (fun p => rfl)
  refine ⟨h.1, ?_, ?_, ?_⟩
  · exact (h.2.2.2 rfl).1 user2 (by simp)
  · exact (h.2.2.2 rfl).2 user1 (by simp) "user 403" rfl
  · exact h.2.2.1 drive1 (by simp) "drive 500" rfl
